import Mathlib

/-!
TypoNoMo — verification of the typo-URL detection engine.

Shallow embedding of `src/content.js` (the SMO-trained SVM from svmjs, its
serialization, the Prefilter, and the feature extractor) and proofs about it.

Conventions of the embedding:
* JavaScript numbers in the SVM are modelled by `JQ`, exact rational
  arithmetic on unreduced fractions (the claims under verification are
  about control flow, sign tests and exact field round-trips, not about
  float rounding). `Math.exp` is an abstract parameter `ex : JQ → JQ`,
  threaded wherever the source calls it.
* `Math.random()` is modelled by an externally supplied stream
  `stream : ℕ → ℕ` together with a counter: the `k`-th call of
  `randi(0, N)` returns `stream k % N`, which ranges over exactly the
  values `0 … N-1` that `Math.floor(Math.random()*N)` can produce.
* Loops whose trip count is not bounded by the source get fuel and return
  `Option`; `none` marks either exhausted fuel or a run the source cannot
  complete (a thrown TypeError is also `none`, noted at each site).
* JS `undefined` fields are modelled by `Option` (serialized JSON) or by
  the documented default at each use site.
-/

/-! ## Exact rational arithmetic

`JQ` is the fraction `n / d` with the invariant `0 < d` maintained by every
operation below (a `d = 0` value could only arise from a division by zero,
which every use site in the embedded code guards). Fractions are left
unreduced so that each operation is a plain `Int`/`Nat` computation;
comparisons go by cross-multiplication, so they agree with the rational
values. -/

structure JQ where
  n : ℤ
  d : ℕ
deriving DecidableEq, Repr

def JQ.add (a b : JQ) : JQ := ⟨a.n * b.d + b.n * a.d, a.d * b.d⟩

def JQ.sub (a b : JQ) : JQ := ⟨a.n * b.d - b.n * a.d, a.d * b.d⟩

def JQ.mul (a b : JQ) : JQ := ⟨a.n * b.n, a.d * b.d⟩

def JQ.neg (a : JQ) : JQ := ⟨-a.n, a.d⟩

/-- `a / b`, flipping signs so the denominator stays positive. (For
`b.n = 0` the result has denominator `0`; the embedded code only divides
by values already tested nonzero.) -/
def JQ.div (a b : JQ) : JQ :=
  if 0 ≤ b.n then ⟨a.n * b.d, a.d * b.n.toNat⟩
  else ⟨-(a.n * b.d), a.d * (-b.n).toNat⟩

def JQ.absv (a : JQ) : JQ := ⟨|a.n|, a.d⟩

def JQ.lt (a b : JQ) : Prop := a.n * b.d < b.n * a.d

def JQ.le (a b : JQ) : Prop := a.n * b.d ≤ b.n * a.d

instance : Add JQ := ⟨JQ.add⟩

instance : Sub JQ := ⟨JQ.sub⟩

instance : Mul JQ := ⟨JQ.mul⟩

instance : Neg JQ := ⟨JQ.neg⟩

instance : Div JQ := ⟨JQ.div⟩

instance : LT JQ := ⟨JQ.lt⟩

instance : LE JQ := ⟨JQ.le⟩

instance (a b : JQ) : Decidable (a < b) :=
  inferInstanceAs (Decidable (a.n * b.d < b.n * a.d))

instance (a b : JQ) : Decidable (a ≤ b) :=
  inferInstanceAs (Decidable (a.n * b.d ≤ b.n * a.d))

instance (k : ℕ) : OfNat JQ k := ⟨⟨k, 1⟩⟩

/-- JS `Math.max` restricted to two arguments. -/
def JQ.maxv (a b : JQ) : JQ := if a < b then b else a

/-- JS `Math.min` restricted to two arguments. -/
def JQ.minv (a b : JQ) : JQ := if b < a then b else a

/-- `Σ_{k<n} f k`, the running `f += …` loop of the source. -/
def sumTo (n : ℕ) (f : ℕ → JQ) : JQ :=
  match n with
  | 0 => 0
  | k + 1 => sumTo k f + f k

/-- JS `options.x || d` for a numeric option: `undefined` and the value `0`
are falsy and give the default `d`. -/
def jsOrQ (o : Option JQ) (d : JQ) : JQ :=
  match o with
  | none => d
  | some v => if v.n = 0 then d else v

/-- JS `options.x || d` for a nonnegative-integer option (maxiter, numpasses). -/
def jsOrN (o : Option ℕ) (d : ℕ) : ℕ :=
  match o with
  | none => d
  | some v => if v = 0 then d else v

/-! ## The SVM of content.js (svmjs) -/

/-- `linearKernel(v1, v2)` from content.js: dot product over `v1.length`. -/
def linearKernel (v1 v2 : List JQ) : JQ :=
  sumTo v1.length (fun q => v1.getD q 0 * v2.getD q 0)

/-- `makeRbfKernel(sigma)` from content.js, with `Math.exp` abstracted as
`ex`. -/
def makeRbfKernel (ex : JQ → JQ) (sigma : JQ) : List JQ → List JQ → JQ :=
  fun v1 v2 =>
    ex (-(sumTo v1.length (fun q =>
        (v1.getD q 0 - v2.getD q 0) * (v1.getD q 0 - v2.getD q 0))) /
      (2 * sigma * sigma))

/-- The data fields of the mutable `SVM` object of content.js. The
function-valued field `this.kernel` is not stored: every operation that
reads it (`marginOne`, prediction) takes the kernel as an explicit argument,
and `fromJSONKernel` below reconstructs the kernel `fromJSON` installs.
`usew_` is the linear fast-path flag of line 64/155; `w` and `rbfSigma` are
`[]`/`0` while the source leaves them `undefined` (they are only read after
being set). -/
structure SVMState where
  data : List (List JQ)
  labels : List JQ
  alpha : List JQ
  b : JQ
  N : ℕ
  D : ℕ
  usew_ : Bool
  w : List JQ
  kernelType : String
  rbfSigma : JQ
deriving DecidableEq, Repr

/-- `SVM.prototype.marginOne` (lines 193–216): the cached-weight path when
`usew_` is set, otherwise the support-vector sum through the kernel `K`. -/
def marginOne (K : List JQ → List JQ → JQ) (m : SVMState) (inst : List JQ) : JQ :=
  if m.usew_ then
    m.b + sumTo m.D (fun j => inst.getD j 0 * m.w.getD j 0)
  else
    m.b + sumTo m.N (fun t => m.alpha.getD t 0 * m.labels.getD t 0 * K inst (m.data.getD t []))

/-- `SVM.prototype.predictOne` (lines 218–220): strict threshold at 0. -/
def predictOne (K : List JQ → List JQ → JQ) (m : SVMState) (inst : List JQ) : ℤ :=
  if (0 : JQ) < marginOne K m inst then 1 else -1

/-- `SVM.prototype.predict` (lines 243–249), elementwise over the batch. -/
def predictAll (K : List JQ → List JQ → JQ) (m : SVMState) (data : List (List JQ)) : List ℤ :=
  data.map (fun x => predictOne K m x)

/-- The JSON object built by `toJSON` / consumed by `fromJSON`; absent
fields are `none` (`{}` for a custom-kernel model is `SVMJson.empty`). -/
structure SVMJson where
  N : Option ℕ
  D : Option ℕ
  b : Option JQ
  kernelType : Option String
  w : Option (List JQ)
  rbfSigma : Option JQ
  data : Option (List (List JQ))
  labels : Option (List JQ)
  alpha : Option (List JQ)
deriving DecidableEq, Repr

def SVMJson.empty : SVMJson := ⟨none, none, none, none, none, none, none, none, none⟩

/-- `SVM.prototype.toJSON` (lines 269–295). The `Bool` component records
whether the "Can't save this SVM …" console message was emitted: for a
custom kernel the source logs and returns the empty object `{}` — it does
not throw. -/
def toJSON (m : SVMState) : SVMJson × Bool :=
  if m.kernelType = "custom" then
    (SVMJson.empty, true)
  else
    let base : SVMJson :=
      { SVMJson.empty with N := some m.N, D := some m.D, b := some m.b,
                           kernelType := some m.kernelType }
    if m.kernelType = "linear" then
      ({ base with w := some m.w }, false)
    else if m.kernelType = "rbf" then
      ({ base with rbfSigma := some m.rbfSigma, data := some m.data,
                   labels := some m.labels, alpha := some m.alpha }, false)
    else
      (base, false)

/-- The fresh `new svmjs.SVM()` object of the predictor path: every field
still `undefined` (modelled by the defaults of the embedding; in particular
`usew_` is falsy). -/
def freshSVM : SVMState :=
  ⟨[], [], [], 0, 0, 0, false, [], "", 0⟩

/-- `SVM.prototype.fromJSON` (lines 297–324), data part. The rbf branch
does not touch `usew_`, so it stays at the fresh object's falsy value; the
unknown-kernel branch only logs. -/
def fromJSON (j : SVMJson) : SVMState :=
  let m1 : SVMState :=
    { freshSVM with N := j.N.getD 0, D := j.D.getD 0, b := j.b.getD 0,
                    kernelType := j.kernelType.getD "" }
  if m1.kernelType = "linear" then
    { m1 with w := j.w.getD [], usew_ := true }
  else if m1.kernelType = "rbf" then
    { m1 with rbfSigma := j.rbfSigma.getD 0, data := j.data.getD [],
              labels := j.labels.getD [], alpha := j.alpha.getD [] }
  else
    m1

/-- The kernel function `fromJSON` installs into `this.kernel`
(`linearKernel` for linear, `makeRbfKernel(json.rbfSigma)` for rbf; for an
unrecognized tag the field is left `undefined`, modelled by the zero
kernel, which that branch never uses). -/
def fromJSONKernel (ex : JQ → JQ) (j : SVMJson) : List JQ → List JQ → JQ :=
  if j.kernelType.getD "" = "linear" then linearKernel
  else if j.kernelType.getD "" = "rbf" then makeRbfKernel ex (j.rbfSigma.getD 0)
  else fun _ _ => 0

/-- The `options` argument of `SVM.prototype.train`: a kernel can be given
as a string, a caller-supplied function, or not at all (line 38). -/
inductive KernelOpt where
  | noK : KernelOpt
  | str : String → KernelOpt
  | fn : (List JQ → List JQ → JQ) → KernelOpt

structure TrainOpts where
  Copt : Option JQ
  tolOpt : Option JQ
  alphatolOpt : Option JQ
  maxiterOpt : Option ℕ
  numpassesOpt : Option ℕ
  kernelOpt : KernelOpt
  rbfsigmaOpt : Option JQ

/-- Line 46: `var rbfSigma = options.rbfsigma || 0.5`. A supplied value of
`0` is falsy in JS and is replaced by the default `0.5`. -/
def resolveRbfSigma (o : Option JQ) : JQ :=
  match o with
  | none => ⟨1, 2⟩
  | some s => if s.n = 0 then ⟨1, 2⟩ else s

/-- Lines 35–56: kernel-type tag, kernel function and backed-up sigma.
An unrecognized kernel string leaves the defaults of lines 36–37 in place
(`"linear"` / `linearKernel`). -/
def resolveKernel (opts : TrainOpts) (ex : JQ → JQ) :
    String × (List JQ → List JQ → JQ) × JQ :=
  match opts.kernelOpt with
  | .noK => ("linear", linearKernel, 0)
  | .str s =>
    if s = "linear" then ("linear", linearKernel, 0)
    else if s = "rbf" then
      let sg := resolveRbfSigma opts.rbfsigmaOpt
      ("rbf", makeRbfKernel ex sg, sg)
    else ("linear", linearKernel, 0)
  | .fn f => ("custom", f, 0)

/-- The state the SMO inner loop mutates: the dual weights, the bias, and
the position in the random stream. -/
structure InnerSt where
  alpha : List JQ
  b : JQ
  c : ℕ
deriving DecidableEq, Repr

/-- The fixed data of one `train` call as seen by the SMO loop. -/
structure SMOParams where
  data : List (List JQ)
  labels : List JQ
  N : ℕ
  Creg : JQ
  tol : JQ
  K : List JQ → List JQ → JQ
  stream : ℕ → ℕ
  pickFuel : ℕ

/-- `marginOne` as called during training (line 86/93): `usew_` is false
until training ends, so the kernel path is always taken. -/
def trainMargin (P : SMOParams) (st : InnerSt) (x : List JQ) : JQ :=
  st.b + sumTo P.N (fun t =>
    st.alpha.getD t 0 * P.labels.getD t 0 * P.K x (P.data.getD t []))

/-- Lines 91–92: `var j = i; while(j === i) j = randi(0, this.N);` — draw
from the stream until a value different from `i` appears. For `N = 1`
every draw is `stream c % 1 = 0`, so with `i = 0` the source loop never
exits; the fuel makes that observable as `none` at every fuel. -/
def pickJ (stream : ℕ → ℕ) (N i : ℕ) : ℕ → ℕ → Option (ℕ × ℕ)
  | _, 0 => none
  | c, fuel + 1 =>
    let j := stream c % N
    if j = i then pickJ stream N i (c + 1) fuel else some (j, c + 1)

/-- Lines 93–132, the deterministic part of one update attempt once the
partner index `j` has been drawn: box bounds, `eta` guard, clipped new
`alpha_j`, derived `alpha_i`, and the bias update. `yi`, `Ei`, `ai` are the
same values `innerStep` computed for its trigger test (the source computes
them once and reuses them). `c2` is the stream position after the draw. -/
def innerUpdate (P : SMOParams) (i j : ℕ) (st : InnerSt) (c2 : ℕ) : InnerSt × Bool :=
  let xi := P.data.getD i []
  let yi := P.labels.getD i 0
  let Ei := trainMargin P st xi - yi
  let ai := st.alpha.getD i 0
  let xj := P.data.getD j []
  let yj := P.labels.getD j 0
  let Ej := trainMargin P st xj - yj
  let aj := st.alpha.getD j 0
  let L := if yi = yj then JQ.maxv 0 (ai + aj - P.Creg) else JQ.maxv 0 (aj - ai)
  let H := if yi = yj then JQ.minv P.Creg (ai + aj)
           else JQ.minv P.Creg (P.Creg + aj - ai)
  if JQ.absv (L - H) < ⟨1, 10000⟩ then ({ st with c := c2 }, false)
  else
    let eta := 2 * P.K xi xj - P.K xi xi - P.K xj xj
    if (0 : JQ) ≤ eta then ({ st with c := c2 }, false)
    else
      let naj0 := aj - yj * (Ei - Ej) / eta
      let naj1 := if H < naj0 then H else naj0
      let newaj := if naj1 < L then L else naj1
      if JQ.absv (aj - newaj) < ⟨1, 10000⟩ then ({ st with c := c2 }, false)
      else
        let newai := ai + yi * yj * (aj - newaj)
        let alpha2 := (st.alpha.set j newaj).set i newai
        let b1 := st.b - Ei - yi * (newai - ai) * P.K xi xi
                  - yj * (newaj - aj) * P.K xi xj
        let b2 := st.b - Ej - yi * (newai - ai) * P.K xi xj
                  - yj * (newaj - aj) * P.K xj xj
        -- lines 127–129: average, then overwritten by b1 if newai is
        -- interior, then by b2 if newaj is (b2 wins when both are).
        let nb := if (0 : JQ) < newaj ∧ newaj < P.Creg then b2
                  else if (0 : JQ) < newai ∧ newai < P.Creg then b1
                  else (b1 + b2) / 2
        ({ alpha := alpha2, b := nb, c := c2 }, true)

/-- The body of `for(var i=0;i<N;i++)` (lines 84–134) at one index `i`:
the trigger test of lines 87–88, then the `j` draw and the paired update.
Returns the updated state and whether `alphaChanged` was incremented;
`none` only when the `j`-picking loop fails to exit within its fuel. -/
def innerStep (P : SMOParams) (i : ℕ) (st : InnerSt) : Option (InnerSt × Bool) :=
  let yi := P.labels.getD i 0
  let Ei := trainMargin P st (P.data.getD i []) - yi
  let ai := st.alpha.getD i 0
  if (yi * Ei < -P.tol ∧ ai < P.Creg) ∨ (P.tol < yi * Ei ∧ (0 : JQ) < ai) then
    match pickJ P.stream P.N i st.c P.pickFuel with
    | none => none
    | some (j, c2) => some (innerUpdate P i j st c2)
  else some (st, false)

/-- Run `innerStep` over a list of indices, accumulating `alphaChanged`. -/
def runIndices (P : SMOParams) : List ℕ → InnerSt → ℕ → Option (InnerSt × ℕ)
  | [], st, chg => some (st, chg)
  | i :: rest, st, chg =>
    match innerStep P i st with
    | none => none
    | some (st2, changed) =>
      runIndices P rest st2 (if changed then chg + 1 else chg)

/-- One pass of the outer `while` body: indices `0 … N-1`. -/
def outerPass (P : SMOParams) (st : InnerSt) : Option (InnerSt × ℕ) :=
  runIndices P (List.range P.N) st 0

/-- Lines 79–141: `while(passes < numpasses && iter < maxiter)`. The result
carries the final inner state, `iter` and `passes`. -/
def smoLoop (P : SMOParams) (numpasses maxiter : ℕ) :
    ℕ → InnerSt → ℕ → ℕ → Option (InnerSt × ℕ × ℕ)
  | 0, _, _, _ => none
  | fuel + 1, st, iter, passes =>
    if passes < numpasses ∧ iter < maxiter then
      match outerPass P st with
      | none => none
      | some (st2, chg) =>
        smoLoop P numpasses maxiter fuel st2 (iter + 1)
          (if chg = 0 then passes + 1 else 0)
    else some (st, iter, passes)

structure TrainResult where
  model : SVMState
  iters : ℕ
  passes : ℕ
deriving DecidableEq, Repr

/-- `SVM.prototype.train` (lines 21–188). `none` covers: an empty training
set (the source throws on `data[0].length`), exhausted loop fuel, and a
diverging `j`-pick. After the loop, a linear kernel gets its weight vector
cached (`usew_` is set inside the `for j < D` loop, hence exactly when
`0 < D`); any other kernel keeps only the support vectors with
`alpha > alphatol`. The `options.memoize` kernel cache is not modelled: it
stores the same `kernel(data[i], data[j])` values `kernelResult` would
recompute, with no semantic effect. -/
def trainQ (data : List (List JQ)) (labels : List JQ) (opts : TrainOpts)
    (ex : JQ → JQ) (stream : ℕ → ℕ) (pickFuel loopFuel : ℕ) : Option TrainResult :=
  match data with
  | [] => none
  | d0 :: _ =>
    let Creg := jsOrQ opts.Copt 1
    let tol := jsOrQ opts.tolOpt ⟨1, 10000⟩
    let alphatol := jsOrQ opts.alphatolOpt ⟨1, 10000000⟩
    let maxiter := jsOrN opts.maxiterOpt 10000
    let numpasses := jsOrN opts.numpassesOpt 10
    let kres := resolveKernel opts ex
    let N := data.length
    let D := d0.length
    let P : SMOParams := ⟨data, labels, N, Creg, tol, kres.2.1, stream, pickFuel⟩
    match smoLoop P numpasses maxiter loopFuel ⟨List.replicate N 0, 0, 0⟩ 0 0 with
    | none => none
    | some (st, iter, passes) =>
      if kres.1 = "linear" then
        let w := (List.range D).map (fun j =>
          sumTo N (fun t => st.alpha.getD t 0 * labels.getD t 0 * (data.getD t []).getD j 0))
        some ⟨{ data := data, labels := labels, alpha := st.alpha, b := st.b,
                N := N, D := D, usew_ := decide (0 < D), w := w,
                kernelType := kres.1, rbfSigma := kres.2.2 }, iter, passes⟩
      else
        let keepIdx := (List.range N).filter (fun t => alphatol < st.alpha.getD t 0)
        some ⟨{ data := keepIdx.map (fun t => data.getD t []),
                labels := keepIdx.map (fun t => labels.getD t 0),
                alpha := keepIdx.map (fun t => st.alpha.getD t 0),
                b := st.b, N := keepIdx.length, D := D, usew_ := false, w := [],
                kernelType := kres.1, rbfSigma := kres.2.2 }, iter, passes⟩

/-! ## Theorems about the SVM -/

/-- Claim C2: for every trained linear-kernel or RBF-kernel model, predicting
any vector after a `toJSON`/`fromJSON` cycle into a fresh model yields the
same label as predicting on the original model. The hypothesis is the
trained-model invariant of the two kernel types: a trained linear model has
`usew_` set, a trained RBF model has `usew_` clear and its installed kernel
is `makeRbfKernel` at its stored sigma. -/
theorem svm_roundtrip (ex : JQ → JQ) (K : List JQ → List JQ → JQ)
    (m : SVMState) (x : List JQ)
    (h : (m.kernelType = "linear" ∧ m.usew_ = true) ∨
         (m.kernelType = "rbf" ∧ m.usew_ = false ∧ K = makeRbfKernel ex m.rbfSigma)) :
    predictOne (fromJSONKernel ex (toJSON m).1) (fromJSON (toJSON m).1) x
      = predictOne K m x := by
  rcases h with ⟨hk, hu⟩ | ⟨hk, hu, hK⟩
  · simp [toJSON, fromJSON, fromJSONKernel, predictOne, marginOne, hk, hu, freshSVM]
  · simp [toJSON, fromJSON, fromJSONKernel, predictOne, marginOne, hk, hu, hK, freshSVM]

/-- Witness for C2: a concrete trained linear model and test vector. -/
def linModelW : SVMState := ⟨[], [], [], ⟨0, 1⟩, 0, 1, true, [⟨2, 1⟩], "linear", ⟨0, 1⟩⟩

theorem svm_roundtrip_witness :
    (linModelW.kernelType = "linear" ∧ linModelW.usew_ = true) ∧
    predictOne (fromJSONKernel (fun q => q) (toJSON linModelW).1)
        (fromJSON (toJSON linModelW).1) [⟨1, 1⟩]
      = predictOne linearKernel linModelW [⟨1, 1⟩] :=
  ⟨⟨rfl, rfl⟩, svm_roundtrip (fun q => q) linearKernel linModelW [⟨1, 1⟩] (Or.inl ⟨rfl, rfl⟩)⟩


/-- Claim C1: for every trained linear-kernel model (nonzero feature
dimension) and every vector `x`, `predictOne` returns `+1` exactly when
`bias + weight·x > 0` and `-1` otherwise (a margin of exactly 0 gives
`-1`), and the margin is computed from the cached weight vector and bias
alone: the result is the same for every kernel `K`, and the right-hand
side mentions no kernel. -/
theorem linear_predict_sign (data : List (List JQ)) (labels : List JQ)
    (opts : TrainOpts) (ex : JQ → JQ) (stream : ℕ → ℕ) (pf lf : ℕ)
    (res : TrainResult)
    (hk : opts.kernelOpt = KernelOpt.str "linear")
    (hD : 0 < (data.getD 0 []).length)
    (ht : trainQ data labels opts ex stream pf lf = some res) :
    res.model.usew_ = true ∧
    ∀ (K : List JQ → List JQ → JQ) (x : List JQ),
      predictOne K res.model x =
        (if (0 : JQ) < res.model.b + sumTo res.model.D
            (fun j => x.getD j 0 * res.model.w.getD j 0) then 1 else -1) := by
  cases data with
  | nil => simp [trainQ] at ht
  | cons d0 rest =>
    simp only [trainQ, resolveKernel, hk, if_pos] at ht
    split at ht
    · exact absurd ht (by simp)
    · rename_i st iter passes heq
      cases ht
      have hD2 : 0 < d0.length := by simpa using hD
      refine ⟨by simpa using hD2, ?_⟩
      intro K x
      simp [predictOne, marginOne, hD2]

/-- Options of the concrete linear training run used by witnesses:
`kernel: "linear"`, `maxiter: 1`, everything else defaulted. -/
def linOpts1 : TrainOpts := ⟨none, none, none, some 1, none, KernelOpt.str "linear", none⟩

/-- The result of that run (two samples `x=1 ↦ +1`, `x=-1 ↦ -1`): one SMO
pass updates both alphas to 1/2, the bias to 0, and caches `w = [1]`. -/
def trainedLin : TrainResult :=
  ⟨⟨[[⟨1, 1⟩], [⟨-1, 1⟩]], [⟨1, 1⟩, ⟨-1, 1⟩], [⟨2, 4⟩, ⟨2, 4⟩], ⟨0, 16⟩, 2, 1, true,
    [⟨16, 16⟩], "linear", ⟨0, 1⟩⟩, 1, 0⟩

theorem linear_predict_sign_witness :
    trainQ [[⟨1, 1⟩], [⟨-1, 1⟩]] [⟨1, 1⟩, ⟨-1, 1⟩] linOpts1 (fun q => q) (fun k => k) 4 3
      = some trainedLin ∧
    trainedLin.model.usew_ = true ∧
    predictOne linearKernel trainedLin.model [⟨3, 1⟩] =
      (if (0 : JQ) < trainedLin.model.b + sumTo trainedLin.model.D
          (fun j => ([⟨3, 1⟩] : List JQ).getD j 0 * trainedLin.model.w.getD j 0)
       then 1 else -1) := by
  refine ⟨by decide, ?_, ?_⟩
  · exact (linear_predict_sign [[⟨1, 1⟩], [⟨-1, 1⟩]] [⟨1, 1⟩, ⟨-1, 1⟩] linOpts1
      (fun q => q) (fun k => k) 4 3 trainedLin rfl (by decide) (by decide)).1
  · exact (linear_predict_sign [[⟨1, 1⟩], [⟨-1, 1⟩]] [⟨1, 1⟩, ⟨-1, 1⟩] linOpts1
      (fun q => q) (fun k => k) 4 3 trainedLin rfl (by decide) (by decide)).2
      linearKernel [⟨3, 1⟩]

/-- The `j`-pick loop can never exit when there is a single sample: every
value `randi(0,1)` can produce is `0 = i`. -/
lemma pickJ_one (stream : ℕ → ℕ) : ∀ (fuel c : ℕ), pickJ stream 1 0 c fuel = none := by
  intro fuel
  induction fuel with
  | zero => intro c; rfl
  | succ n ih => intro c; simpa [pickJ, Nat.mod_one] using ih (c + 1)

/-- On the one-sample training set `{(x=[1], y=+1)}` the trigger condition
of lines 87–88 holds at `i = 0` (the initial margin error is `-1`), so the
first inner step reaches the diverging `j`-pick. -/
lemma innerStep_one (stream : ℕ → ℕ) (pf : ℕ) :
    innerStep ⟨[[⟨1, 1⟩]], [⟨1, 1⟩], 1, 1, ⟨1, 10000⟩, linearKernel, stream, pf⟩ 0
      ⟨[0], 0, 0⟩ = none := by
  simp only [innerStep]
  split
  · rw [pickJ_one]
  · rename_i hcond
    refine absurd ?_ hcond
    left
    constructor
    · simp [trainMargin, sumTo, linearKernel]
      decide
    · decide

lemma runIndices_cons_none (P : SMOParams) (i : ℕ) (rest : List ℕ) (st : InnerSt)
    (chg : ℕ) (h : innerStep P i st = none) :
    runIndices P (i :: rest) st chg = none := by
  simp [runIndices, h]

lemma outerPass_one (stream : ℕ → ℕ) (pf : ℕ) :
    outerPass ⟨[[⟨1, 1⟩]], [⟨1, 1⟩], 1, 1, ⟨1, 10000⟩, linearKernel, stream, pf⟩
      ⟨[0], 0, 0⟩ = none := by
  show runIndices ⟨[[⟨1, 1⟩]], [⟨1, 1⟩], 1, 1, ⟨1, 10000⟩, linearKernel, stream, pf⟩
    [0] ⟨[0], 0, 0⟩ 0 = none
  exact runIndices_cons_none _ _ _ _ _ (innerStep_one stream pf)

lemma smoLoop_succ_none (P : SMOParams) (np mi fuel : ℕ) (st : InnerSt)
    (iter passes : ℕ) (hcond : passes < np ∧ iter < mi) (h : outerPass P st = none) :
    smoLoop P np mi (fuel + 1) st iter passes = none := by
  rw [smoLoop, if_pos hcond, h]

lemma smoLoop_one (stream : ℕ → ℕ) (pf lf : ℕ) :
    smoLoop ⟨[[⟨1, 1⟩]], [⟨1, 1⟩], 1, 1, ⟨1, 10000⟩, linearKernel, stream, pf⟩
      10 10000 lf ⟨[0], 0, 0⟩ 0 0 = none := by
  cases lf with
  | zero => rfl
  | succ n => exact smoLoop_succ_none _ _ _ _ _ _ _ (by decide) (outerPass_one stream pf)

/-- `train` terminates on the given inputs: some pick fuel and loop fuel
make the embedded `train` return. -/
def trainTerminates (data : List (List JQ)) (labels : List JQ) (opts : TrainOpts)
    (ex : JQ → JQ) (stream : ℕ → ℕ) : Prop :=
  ∃ pf lf, (trainQ data labels opts ex stream pf lf).isSome = true

/-- `train(data, labels)` with no options (all defaults). -/
def defaultOpts : TrainOpts := ⟨none, none, none, none, none, KernelOpt.noK, none⟩

/-- Counterexample to claim C4 as stated: on the one-sample training set
`train` never terminates, for any fuel — the first update attempt enters
`while(j===i) j=randi(0,1)` and every draw returns `0 = i`. (The random
stream `fun k => k` is concrete but arbitrary: `pickJ_one` holds for every
stream.) -/
theorem smo_train_single_sample_diverges :
    trainTerminates [[⟨1, 1⟩]] [⟨1, 1⟩] defaultOpts (fun q => q) (fun k => k) = False := by
  apply eq_false
  rintro ⟨pf, lf, h⟩
  have hnone : trainQ [[⟨1, 1⟩]] [⟨1, 1⟩] defaultOpts (fun q => q) (fun k => k) pf lf
      = none := by
    simp [trainQ, defaultOpts, jsOrQ, jsOrN, resolveKernel, smoLoop_one, List.replicate]
  rw [hnone] at h
  simp at h

/-- The outer `while` loop's exit characterization: entered with in-range
counters, when it produces a result the final `passes` has just reached
`numpasses` or the final `iter` has just reached `maxiter` — nothing else
stops it. -/
lemma smoLoop_stop (P : SMOParams) (np mi : ℕ) :
    ∀ (fuel : ℕ) (st : InnerSt) (iter passes : ℕ), passes ≤ np → iter ≤ mi →
    ∀ out, smoLoop P np mi fuel st iter passes = some out →
      (out.2.2 = np ∨ out.2.1 = mi) ∧ out.2.2 ≤ np ∧ out.2.1 ≤ mi := by
  intro fuel
  induction fuel with
  | zero => intro st iter passes _ _ out h; cases h
  | succ n ih =>
    intro st iter passes hp hi out h
    rw [smoLoop] at h
    by_cases hc : passes < np ∧ iter < mi
    · rw [if_pos hc] at h
      cases ho : outerPass P st with
      | none => rw [ho] at h; cases h
      | some pr =>
        rw [ho] at h
        exact ih pr.1 (iter + 1) (if pr.2 = 0 then passes + 1 else 0)
          (by split <;> omega) (by omega) out h
    · rw [if_neg hc] at h
      cases h
      refine ⟨?_, hp, hi⟩
      dsimp only
      omega

/-- Claim C4 (amended): whenever `train` returns — which can fail to happen:
with a single training sample the inner pick-`j` loop never exits, see the
counterexample — its outer SMO loop stopped exactly when the count of
consecutive zero-update passes reached `numpasses` (default 10) or the
outer-iteration count reached `maxiter` (default 10000), whichever happened
first; no other condition stops the loop. -/
theorem smo_stop_rule (data : List (List JQ)) (labels : List JQ) (opts : TrainOpts)
    (ex : JQ → JQ) (stream : ℕ → ℕ) (pf lf : ℕ) (res : TrainResult)
    (h : trainQ data labels opts ex stream pf lf = some res) :
    (res.passes = jsOrN opts.numpassesOpt 10 ∨ res.iters = jsOrN opts.maxiterOpt 10000) ∧
    res.passes ≤ jsOrN opts.numpassesOpt 10 ∧ res.iters ≤ jsOrN opts.maxiterOpt 10000 := by
  cases data with
  | nil => simp [trainQ] at h
  | cons d0 rest =>
    simp only [trainQ] at h
    split at h
    · exact absurd h (by simp)
    · rename_i st iter passes heq
      have key := smoLoop_stop _ _ _ _ _ _ _ (Nat.zero_le _) (Nat.zero_le _) _ heq
      split at h <;> cases h <;> simpa using key

theorem smo_stop_rule_witness :
    trainQ [[⟨1, 1⟩], [⟨-1, 1⟩]] [⟨1, 1⟩, ⟨-1, 1⟩] linOpts1 (fun q => q) (fun k => k) 4 3
      = some trainedLin ∧
    ((trainedLin.passes = 10 ∨ trainedLin.iters = 1) ∧
      trainedLin.passes ≤ 10 ∧ trainedLin.iters ≤ 1) :=
  ⟨by decide,
   smo_stop_rule [[⟨1, 1⟩], [⟨-1, 1⟩]] [⟨1, 1⟩, ⟨-1, 1⟩] linOpts1
     (fun q => q) (fun k => k) 4 3 trainedLin (by decide)⟩

/-- Counterexample to claim C5 as stated: serializing a concrete
custom-kernel model raises no error — the caller receives the plain empty
object `{}` (every field absent), with only a console message emitted. -/
theorem toJSON_custom_cex :
    toJSON ⟨[], [], [], 0, 0, 0, false, [], "custom", 0⟩ = (SVMJson.empty, true) ∧
    SVMJson.empty.kernelType = none ∧ SVMJson.empty.w = none ∧
    SVMJson.empty.data = none := by
  refine ⟨by decide, rfl, rfl, rfl⟩

/-- Claim C5 (amended): attempting to serialize a custom-kernel model does
not fail with an error to the caller — `toJSON` logs the "can't save"
console message (the `true` component) and returns the empty object `{}`,
exactly a silently useless model. -/
theorem toJSON_custom (m : SVMState) (h : m.kernelType = "custom") :
    toJSON m = (SVMJson.empty, true) := by
  simp [toJSON, h]

theorem toJSON_custom_witness :
    (⟨[], [], [], 0, 0, 0, false, [], "custom", 0⟩ : SVMState).kernelType = "custom" ∧
    toJSON ⟨[], [], [], 0, 0, 0, false, [], "custom", 0⟩ = (SVMJson.empty, true) :=
  ⟨rfl, toJSON_custom ⟨[], [], [], 0, 0, 0, false, [], "custom", 0⟩ rfl⟩

/-- Options of the concrete RBF run with `rbfsigma: 0`: `kernel: "rbf"`,
`maxiter: 1`. -/
def rbfOpts0 : TrainOpts := ⟨none, none, none, some 1, none, KernelOpt.str "rbf", some ⟨0, 1⟩⟩

/-- The result of that run (with `Math.exp` instantiated to the identity for
concreteness; the sigma handling does not depend on it). -/
def trainedRbf : TrainResult :=
  ⟨⟨[[⟨1, 1⟩], [⟨-1, 1⟩]], [⟨1, 1⟩, ⟨-1, 1⟩], [⟨256, 2048⟩, ⟨256, 2048⟩], ⟨0, 67108864⟩,
    2, 1, false, [], "rbf", ⟨1, 2⟩⟩, 1, 0⟩

/-- Counterexample to claim C8 as stated: training with kernel `"rbf"` and
`rbfsigma = 0` does not fail — it returns a model, and that model's sigma
is the default `1/2`, silently substituted by `options.rbfsigma || 0.5`. -/
theorem rbf_sigma_zero_cex :
    trainQ [[⟨1, 1⟩], [⟨-1, 1⟩]] [⟨1, 1⟩, ⟨-1, 1⟩] rbfOpts0 (fun q => q) (fun k => k) 4 3
      = some trainedRbf ∧
    trainedRbf.model.rbfSigma = ⟨1, 2⟩ ∧ trainedRbf.model.kernelType = "rbf" := by
  refine ⟨by decide, rfl, rfl⟩

/-- Claim C8 (amended): training with an RBF kernel and `rbfsigma` equal to
`0` is not rejected; the zero is falsy in `options.rbfsigma || 0.5`, so the
trained model silently carries the default width `1/2`. (A negative sigma
is likewise accepted, truthy, and used as given.) -/
theorem rbf_sigma_zero_defaults (data : List (List JQ)) (labels : List JQ)
    (opts : TrainOpts) (ex : JQ → JQ) (stream : ℕ → ℕ) (pf lf : ℕ)
    (res : TrainResult) (s : JQ)
    (hk : opts.kernelOpt = KernelOpt.str "rbf")
    (h0 : opts.rbfsigmaOpt = some s) (hs : s.n = 0)
    (h : trainQ data labels opts ex stream pf lf = some res) :
    res.model.rbfSigma = ⟨1, 2⟩ ∧ res.model.kernelType = "rbf" := by
  cases data with
  | nil => simp [trainQ] at h
  | cons d0 rest =>
    simp only [trainQ, resolveKernel, hk, h0, resolveRbfSigma, hs, if_pos] at h
    split at h
    · exact absurd h (by simp)
    · rename_i st iter passes heq
      cases h
      exact ⟨rfl, rfl⟩

theorem rbf_sigma_zero_defaults_witness :
    rbfOpts0.kernelOpt = KernelOpt.str "rbf" ∧ rbfOpts0.rbfsigmaOpt = some ⟨0, 1⟩ ∧
    trainQ [[⟨1, 1⟩], [⟨-1, 1⟩]] [⟨1, 1⟩, ⟨-1, 1⟩] rbfOpts0 (fun q => q) (fun k => k) 4 3
      = some trainedRbf ∧
    trainedRbf.model.rbfSigma = ⟨1, 2⟩ ∧ trainedRbf.model.kernelType = "rbf" :=
  ⟨rfl, rfl, by decide,
   rbf_sigma_zero_defaults [[⟨1, 1⟩], [⟨-1, 1⟩]] [⟨1, 1⟩, ⟨-1, 1⟩] rbfOpts0
     (fun q => q) (fun k => k) 4 3 trainedRbf ⟨0, 1⟩ rfl rfl rfl (by decide)⟩

/-! ## String helpers with JS semantics

The tokens handled by the Prefilter and feature extractor are ASCII; `\w`
is `[A-Za-z0-9_]` and `toLowerCase` is modelled on ASCII. -/

def isWordChar (ch : Char) : Bool := ch.isAlphanum || ch == '_'

def jsToLower (s : String) : String := String.mk (s.data.map Char.toLower)

/-- `needle` is a prefix of `hay` (character-literal comparison). -/
def litStarts : List Char → List Char → Bool
  | [], _ => true
  | _ :: _, [] => false
  | c :: cs, h :: hs => c == h && litStarts cs hs

def containsAux (needle : List Char) : List Char → Bool
  | [] => litStarts needle []
  | h :: hs => litStarts needle (h :: hs) || containsAux needle hs

/-- JS `hay.includes(needle)`: literal substring search. -/
def sContains (hay needle : String) : Bool := containsAux needle.data hay.data

/-- Worker for `url.match(/(?<=\.)\w+/g)`: a left-to-right scan collecting
every maximal `\w+` run whose preceding character is `'.'`. `prev` is the
character before the current position, `run` the current word run
(reversed), `dotp` whether that run started right after a dot. -/
def twAux : List Char → Option Char → List Char → Bool → List String
  | [], _, run, dotp =>
    if run.isEmpty || !dotp then [] else [String.mk run.reverse]
  | ch :: rest, prev, run, dotp =>
    if isWordChar ch then
      if run.isEmpty then twAux rest (some ch) [ch] (prev == some '.')
      else twAux rest (some ch) (ch :: run) dotp
    else
      (if run.isEmpty || !dotp then [] else [String.mk run.reverse]) ++
        twAux rest (some ch) [] false

/-- The matches of `/(?<=\.)\w+/g` against `s`, in order. -/
def tailWords (s : String) : List String := twAux s.data none [] false

/-- `s.match(/(?<=\.)\w+/g)`: JS returns `null` (here `none`) when there is
no match at all. -/
def tailWordsOpt (s : String) : Option (List String) :=
  match tailWords s with
  | [] => none
  | l => some l

/-- `url.match(/^\w+/)[0]`: the leading word run; `none` when the regex
does not match, in which case the source's `[0]` throws. -/
def firstwordOpt (s : String) : Option String :=
  let run := s.data.takeWhile isWordChar
  if run.isEmpty then none else some (String.mk run)

/-- Lines 564–568: fold over the TLD dictionary keeping the longest entry
that is a substring of `ending` and itself contains `last`. -/
def inferTld (tlds : List String) (ending last : String) : String :=
  tlds.foldl (fun tld item =>
    if sContains ending item ∧ tld.length < item.length ∧ sContains item last then item
    else tld) ""

/-- The quadruple `[isPossibleTypo, tld, firstword, otherwords]` returned
by `Prefiltering`. `candidate` is the truthiness of the first component
(`tldIsWord` is `undefined`, hence falsy, when no dictionary word matched);
`otherwords` is `none` when the JS value is `null`. -/
structure PrefilterResult where
  candidate : Bool
  tld : String
  firstword : String
  otherwords : Option (List String)
deriving DecidableEq, Repr

/-- `Prefiltering(url)` (lines 545–605) against the word dictionary `words`
and TLD dictionary `tlds`. `none` models the two TypeError crashes:
`url.match(/^\w+/)[0]` when the lower-cased token does not start with a
word character (line 549), and `otherwords.length` when
`url.match(/(?<=\.)\w+/g)` returned `null` — no dot-preceded word run —
and the `'/'`/`'?'`/`"www"` early return of line 556 was not taken
(line 560). The word-dictionary loop also computes `firstwordIsWord` and
`countOtherword`, which do not affect the returned value. -/
def Prefiltering (words tlds : List String) (url0 : String) : Option PrefilterResult :=
  let url := jsToLower url0
  let otherwordsO := tailWordsOpt url
  match firstwordOpt url with
  | none => none
  | some firstword =>
    if sContains url "/" || sContains url "?" || sContains url "www" then
      some ⟨false, "", firstword, otherwordsO⟩
    else
      match otherwordsO with
      | none => none
      | some otherwords =>
        let tld :=
          if 1 < otherwords.length then
            inferTld tlds
              (otherwords.getD (otherwords.length - 2) "" ++ "." ++
                otherwords.getD (otherwords.length - 1) "")
              (otherwords.getD (otherwords.length - 1) "")
          else otherwords.getD 0 ""
        if tld = "com" ∨ tld = "org" ∨ sContains tld "." then
          some ⟨false, tld, firstword, some otherwords⟩
        else
          some ⟨words.any (fun item => tld == jsToLower item), tld, firstword, some otherwords⟩

/-- Claim C3: for every token without `'/'`, `'?'` or `"www"` whose parse
succeeds (a leading word run exists and at least one dot-preceded word run
exists — otherwise the source throws, see C6), the Prefilter returns
candidate = true iff the inferred tail is not `"com"`, not `"org"`,
contains no dot, and appears case-insensitively in the English-word
dictionary. -/
theorem prefilter_candidate_iff (words tlds : List String) (url fw : String)
    (ow : List String)
    (h1 : sContains (jsToLower url) "/" = false)
    (h2 : sContains (jsToLower url) "?" = false)
    (h3 : sContains (jsToLower url) "www" = false)
    (hf : firstwordOpt (jsToLower url) = some fw)
    (ho : tailWordsOpt (jsToLower url) = some ow) :
    ∃ r : PrefilterResult, Prefiltering words tlds url = some r ∧
      r.firstword = fw ∧ r.otherwords = some ow ∧
      (r.candidate = true ↔ (r.tld ≠ "com" ∧ r.tld ≠ "org" ∧ sContains r.tld "." = false ∧
        words.any (fun item => r.tld == jsToLower item) = true)) := by
  simp only [Prefiltering]
  rw [hf, ho, h1, h2, h3]
  simp only [Bool.or_false, Bool.false_or, if_false, Bool.false_eq_true, ite_false]
  set t := (if 1 < ow.length then
      inferTld tlds (ow.getD (ow.length - 2) "" ++ "." ++ ow.getD (ow.length - 1) "")
        (ow.getD (ow.length - 1) "")
    else ow.getD 0 "") with hT
  by_cases hg : t = "com" ∨ t = "org" ∨ sContains t "." = true
  · rw [if_pos hg]
    refine ⟨_, rfl, rfl, rfl, ?_⟩
    simp only [Bool.false_eq_true, false_iff]
    rintro ⟨hc, ho2, hd, hw⟩
    rcases hg with hg | hg | hg
    · exact hc hg
    · exact ho2 hg
    · rw [hg] at hd; cases hd
  · rw [if_neg hg]
    refine ⟨_, rfl, rfl, rfl, ?_⟩
    push_neg at hg
    simp [hg.1, hg.2.1, hg.2.2]

theorem prefilter_candidate_iff_witness :
    (sContains (jsToLower "you.you") "/" = false ∧
     sContains (jsToLower "you.you") "?" = false ∧
     sContains (jsToLower "you.you") "www" = false ∧
     firstwordOpt (jsToLower "you.you") = some "you" ∧
     tailWordsOpt (jsToLower "you.you") = some ["you"]) ∧
    (∃ r : PrefilterResult, Prefiltering ["you"] [] "you.you" = some r ∧
      r.firstword = "you" ∧ r.otherwords = some ["you"] ∧
      (r.candidate = true ↔ (r.tld ≠ "com" ∧ r.tld ≠ "org" ∧ sContains r.tld "." = false ∧
        (["you"].any (fun item => r.tld == jsToLower item)) = true))) :=
  ⟨⟨by decide, by decide, by decide, by decide, by decide⟩,
   prefilter_candidate_iff ["you"] [] "you.you" "you" ["you"]
     (by decide) (by decide) (by decide) (by decide) (by decide)⟩

/-- The spec's two Prefilter examples, concretely: `"you.you"` (with
`"you"` in the word dictionary) is a candidate with tail `"you"`;
`"google.com"` is rejected with tail `"com"`. -/
theorem prefilter_examples :
    Prefiltering ["you"] [] "you.you" = some ⟨true, "you", "you", some ["you"]⟩ ∧
    Prefiltering ["you"] [] "google.com" = some ⟨false, "com", "google", some ["com"]⟩ := by
  refine ⟨by decide, by decide⟩

/-- Claim C6: a token with no dot-separated tail segment does not make the
Prefilter return candidate = false — it crashes. `url.match(/(?<=\.)\w+/g)`
is `null` for `"abc"`, the early return of line 556 is not taken, and
line 560 throws a TypeError reading `null.length` (modelled as `none`),
whatever the dictionaries are. -/
theorem prefilter_no_dot_token_crash :
    ∀ words tlds : List String, Prefiltering words tlds "abc" = none :=
  fun _ _ => rfl

/-! ## The feature extractor (`calculateFeatures`, lines 607–818) -/

/-- One feature-vector object (`class URLElement`, lines 425–446), fields in
source order. The JS fields `end` and `to` are Lean keywords and appear as `endp` and `to_`. -/
structure URLElement where
  url : String
  beginning : ℕ
  middle : ℕ
  endp : ℕ
  repetition : ℕ
  preposition : ℕ
  ns : ℕ
  net : ℕ
  co : ℕ
  gov : ℕ
  it : ℕ
  my : ℕ
  no : ℕ
  so : ℕ
  you : ℕ
  to_ : ℕ
  zip : ℕ
  string : ℕ
deriving DecidableEq, Repr

/-- One pattern character against one text character: in `new RegExp(s)`
the url's dots are regex wildcards matching anything but a line
terminator; the other characters of a token are literals. -/
def patCharMatch (p c : Char) : Bool :=
  if p == '.' then !(c == '\n' || c == '\r') else p == c

/-- The pattern matches a prefix of the text. -/
def matchAt (pat text : List Char) : Bool :=
  match pat, text with
  | [], _ => true
  | _ :: _, [] => false
  | p :: ps, c :: cs => patCharMatch p c && matchAt ps cs

/-- `regex.exec(text).index`: the leftmost match position of the url
pattern, `none` when JS returns `null`. -/
def findFrom (pat : List Char) : List Char → ℕ → Option ℕ
  | [], i => if matchAt pat [] then some i else none
  | c :: cs, i => if matchAt pat (c :: cs) then some i else findFrom pat cs (i + 1)

/-- `[...text.matchAll(new RegExp(s, 'g'))].length`: non-overlapping
matches, each scan resuming at the end of the previous match. The fuel is
`text.length + 1`, ample since every match consumes at least one character
(the url is nonempty). -/
def cmAux (pat : List Char) : ℕ → List Char → ℕ
  | 0, _ => 0
  | fuel + 1, text =>
    match findFrom pat text 0 with
    | none => 0
    | some i => 1 + cmAux pat fuel (text.drop (i + pat.length))

def countMatches (pat text : List Char) : ℕ := cmAux pat (text.length + 1) text

/-- `[^ \r\n]` of the preposition regex. -/
def nonSpace (c : Char) : Bool := !(c == ' ' || c == '\r' || c == '\n')

/-- One scan step of `('([^ \r\n]+) ' + url)` with the `g` flag: at each
position, a match requires a nonempty run of non-space characters, then a
literal space, then the url pattern; on success the capture is that run
and scanning resumes after the url. A failed attempt moves one position
right (equivalently to the end of the current run, which fails for the
same space). -/
def prepFindAux (url : List Char) : List Char → Option (List Char × List Char)
  | [] => none
  | c :: cs =>
    if nonSpace c then
      match (c :: cs).dropWhile nonSpace with
      | ' ' :: rest2 =>
        if matchAt url rest2 then some ((c :: cs).takeWhile nonSpace, rest2.drop url.length)
        else prepFindAux url cs
      | _ => prepFindAux url cs
    else prepFindAux url cs

/-- All captures `match[1]` of the global preposition regex, in order. -/
def prepCapAux (url : List Char) : ℕ → List Char → List (List Char)
  | 0, _ => []
  | fuel + 1, text =>
    match prepFindAux url text with
    | none => []
    | some (run, rest) => run :: prepCapAux url fuel rest

/-- Line 650: the address-introducing cues tested on `previous_word`. -/
def isCue (prev : String) : Bool :=
  prev == "on" || prev == "via" || prev == "to" || prev == "at" ||
  sContains prev "website" || sContains prev ":" || sContains prev "visit"

/-- Lines 640–657: `preposition = 1` when no `<word> <url>` occurrence
exists; otherwise the loop breaks to `0` at the first cue-qualifying
previous word and otherwise ends at `1`. -/
def prepositionFlag (url text : String) : ℕ :=
  let caps := prepCapAux url.data (text.length + 1) text.data
  if caps.isEmpty then 1
  else if caps.any (fun cap => isCue (String.mk (cap.map Char.toLower))) then 0 else 1

/-- Lines 616–629: `(beginning, middle, end)` from the match position
(`text_length - url_length` computed over JS numbers, hence `ℤ`). -/
def posTriple (startof tlen ulen : ℤ) : ℕ × ℕ × ℕ :=
  if startof = tlen - ulen then (0, 0, 1)
  else if startof = 0 then (1, 0, 0)
  else (0, 1, 0)

/-- One of the ten TLD one-hot comparisons of lines 659–718. -/
def tldFlag (tld s : String) : ℕ := if tld = s then 1 else 0

def isAsciiLower (c : Char) : Bool := decide ('a' ≤ c) && decide (c ≤ 'z')

def isAsciiUpper (c : Char) : Bool := decide ('A' ≤ c) && decide (c ≤ 'Z')

/-- `s.match(/[a-z][A-Z]/g) != null`. -/
def hasLowerUpper : List Char → Bool
  | a :: b :: rest => (isAsciiLower a && isAsciiUpper b) || hasLowerUpper (b :: rest)
  | _ => false

/-- `s.match(/[a-z]\.[A-Z]/g) != null`. -/
def hasLowerDotUpper : List Char → Bool
  | a :: b :: c :: rest =>
    (isAsciiLower a && b == '.' && isAsciiUpper c) || hasLowerDotUpper (b :: c :: rest)
  | _ => false

def isHexDigit (c : Char) : Bool :=
  c.isDigit || (decide ('a' ≤ c) && decide (c ≤ 'f')) || (decide ('A' ≤ c) && decide (c ≤ 'F'))

def expDigits : List Char → Bool
  | '+' :: r => !r.isEmpty && r.all Char.isDigit
  | '-' :: r => !r.isEmpty && r.all Char.isDigit
  | r => !r.isEmpty && r.all Char.isDigit

def expPart : List Char → Bool
  | [] => true
  | 'e' :: r => expDigits r
  | 'E' :: r => expDigits r
  | _ => false

/-- A decimal JS numeric literal body: digits with an optional fraction
and exponent, or a fraction alone. -/
def decForm (l : List Char) : Bool :=
  match l.dropWhile Char.isDigit with
  | '.' :: r2 =>
    (!(l.takeWhile Char.isDigit).isEmpty || !(r2.takeWhile Char.isDigit).isEmpty) &&
      expPart (r2.dropWhile Char.isDigit)
  | r1 => !(l.takeWhile Char.isDigit).isEmpty && expPart r1

def numericLiteral : List Char → Bool
  | '+' :: r => decForm r
  | '-' :: r => decForm r
  | '0' :: 'x' :: r => !r.isEmpty && r.all isHexDigit
  | '0' :: 'X' :: r => !r.isEmpty && r.all isHexDigit
  | '0' :: 'o' :: r => !r.isEmpty && r.all (fun c => decide ('0' ≤ c) && decide (c ≤ '7'))
  | '0' :: 'O' :: r => !r.isEmpty && r.all (fun c => decide ('0' ≤ c) && decide (c ≤ '7'))
  | '0' :: 'b' :: r => !r.isEmpty && r.all (fun c => c == '0' || c == '1')
  | '0' :: 'B' :: r => !r.isEmpty && r.all (fun c => c == '0' || c == '1')
  | l => decForm l

/-- JS `isNaN(s) == false`: `Number(s)` is not NaN. A whitespace-only
string coerces to `0` (a number); otherwise the trimmed string must be a
decimal/hex/octal/binary numeric literal. (`"Infinity"` is case-sensitive
in JS and cannot occur among the lower-cased `\w+` tokens handled here.) -/
def jsNotNaN (s : String) : Bool :=
  let t := s.data.dropWhile Char.isWhitespace
  let t2 := (t.reverse.dropWhile Char.isWhitespace).reverse
  if t2.isEmpty then true else numericLiteral t2

/-- Lines 721–728: `count`, the number of short (length < 2) remaining
segments, counted only when the first segment is itself short. -/
def shortCount (firstword : String) (otherwords : List String) : ℕ :=
  if firstword.length < 2 then (otherwords.filter (fun item => item.length < 2)).length
  else 0

/-- The guard of line 776, `count == otherwords.length - 1`, over JS
numbers (for empty `otherwords` the right-hand side is `-1`). -/
def shortMajority (firstword : String) (otherwords : List String) : Bool :=
  (shortCount firstword otherwords : ℤ) == (otherwords.length : ℤ) - 1

/-- The `containsDash()` helper of lines 797–807, as the value its caller
observes: `true` when the first segment has a hyphen. Otherwise the
`otherwords.forEach` runs a callback whose `return true` only leaves the
callback — `forEach` discards callback results — and `containsDash` falls
through, returning `undefined` (falsy). A hyphen in a remaining segment is
therefore never reported. -/
def containsDash (firstword : String) (_otherwords : List String) : Bool :=
  sContains firstword "-"

/-- The "string-likeness" flag, lines 720–794: the branch chain of
lines 775–794 in source order over the word/number/camel-case signals.
Note line 780 tests `otherwordsAreWords == false` twice (sic). -/
def stringFlag (words : List String) (firstword : String) (otherwords : List String)
    (url : String) : ℕ :=
  let countOtherword := (words.map (fun item =>
      ((otherwords.take (otherwords.length - 1)).filter
        (fun ow => ow == jsToLower item)).length)).sum
  let firstwordIsWord := words.any (fun item => firstword == jsToLower item)
  let otherwordsAreWords := (countOtherword : ℤ) == (otherwords.length : ℤ) - 1
  let firstwordisNumber := jsNotNaN firstword
  let otherwordsAreNumbers := otherwords.all jsNotNaN
  let firstwordCamelCase := hasLowerUpper firstword.data
  let otherwordsCamelCase := otherwords.any (fun item => hasLowerUpper item.data)
  let urlDotCapital := hasLowerDotUpper url.data
  if shortMajority firstword otherwords then 1
  else if containsDash firstword otherwords then 0
  else if (!firstwordIsWord && !firstwordisNumber) ||
          (!otherwordsAreWords && !otherwordsAreWords) then 0
  else if firstwordisNumber && otherwords.length == 1 then 1
  else if firstwordisNumber && otherwordsAreNumbers then 1
  else if firstwordisNumber && otherwordsAreWords && !otherwordsCamelCase then 1
  else if firstwordIsWord && !firstwordCamelCase && otherwords.length == 1 &&
          urlDotCapital then 1
  else if otherwordsAreWords && !otherwordsCamelCase && firstwordisNumber then 1
  else if otherwordsAreWords && !otherwordsCamelCase && firstwordIsWord &&
          !firstwordCamelCase then 1
  else 0

/-- `calculateFeatures` (lines 607–807), the synchronous part — everything
except the NS lookup of lines 809–818 (`nsStep` below). `none` models the
TypeError at line 614 when `regex.exec(text)` is `null` (the url pattern
occurs nowhere in the text). The produced element's `ns` is still unset
(`0` here); elements only reach the prediction batch through the DNS
callback, which assigns `ns` before pushing. -/
def calcFeatures (words : List String) (firstword : String) (otherwords : List String)
    (url text tld : String) : Option URLElement :=
  match findFrom url.data text.data 0 with
  | none => none
  | some startof =>
    let pos := posTriple (startof : ℤ) (text.length : ℤ) (url.length : ℤ)
    some {
      url := url,
      beginning := pos.1, middle := pos.2.1, endp := pos.2.2,
      repetition := if 1 < countMatches url.data text.data then 1 else 0,
      preposition := prepositionFlag url text,
      ns := 0,
      net := tldFlag tld "net", co := tldFlag tld "co", gov := tldFlag tld "gov",
      it := tldFlag tld "it", my := tldFlag tld "my", no := tldFlag tld "no",
      so := tldFlag tld "so", you := tldFlag tld "you", to_ := tldFlag tld "to",
      zip := tldFlag tld "zip",
      string := stringFlag words firstword otherwords url }

/-- The outcome of the NS lookup `DNS.Query(url, NS, callback)`
(lines 404–422 and 809–818): the synchronous XHR completes with HTTP 200
and a parsed record list, or completes with another status (the
`onreadystatechange` guard fails and the callback never runs), or throws
(a synchronous XMLHttpRequest network error propagates out of `send`). -/
inductive NSResult where
  | success (records : ℕ) : NSResult
  | httpFailure : NSResult
  | thrown : NSResult
deriving DecidableEq, Repr

/-- Lines 809–818: on success the callback sets `ns` (1 iff zero records)
and pushes the element into the batch array; on `httpFailure` nothing runs,
so the array is unchanged and the candidate is dropped; on `thrown` the
exception propagates out of `calculateFeatures`. -/
def nsStep (outcome : NSResult) (elt : URLElement) (arr : List URLElement) :
    Option (List URLElement) :=
  match outcome with
  | .success records => some (arr ++ [{ elt with ns := if records = 0 then 1 else 0 }])
  | .httpFailure => some arr
  | .thrown => none

/-! ## Theorems about the feature extractor -/

lemma posTriple_cases (a b c : ℤ) :
    posTriple a b c = (1, 0, 0) ∨ posTriple a b c = (0, 1, 0) ∨
    posTriple a b c = (0, 0, 1) := by
  unfold posTriple
  split
  · exact Or.inr (Or.inr rfl)
  · split
    · exact Or.inl rfl
    · exact Or.inr (Or.inl rfl)

lemma tldFlag_sum_le_one (tld : String) :
    tldFlag tld "net" + tldFlag tld "co" + tldFlag tld "gov" + tldFlag tld "it" +
    tldFlag tld "my" + tldFlag tld "no" + tldFlag tld "so" + tldFlag tld "you" +
    tldFlag tld "to" + tldFlag tld "zip" ≤ 1 := by
  by_cases h1 : tld = "net"
  · subst h1; decide
  by_cases h2 : tld = "co"
  · subst h2; decide
  by_cases h3 : tld = "gov"
  · subst h3; decide
  by_cases h4 : tld = "it"
  · subst h4; decide
  by_cases h5 : tld = "my"
  · subst h5; decide
  by_cases h6 : tld = "no"
  · subst h6; decide
  by_cases h7 : tld = "so"
  · subst h7; decide
  by_cases h8 : tld = "you"
  · subst h8; decide
  by_cases h9 : tld = "to"
  · subst h9; decide
  by_cases h10 : tld = "zip"
  · subst h10; decide
  simp [tldFlag, h1, h2, h3, h4, h5, h6, h7, h8, h9, h10]

/-- Claim C9: every feature vector the extractor produces has exactly one
of `{beginning, middle, end}` equal to 1 (the other two 0), and its ten
TLD one-hot flags — each 0 or 1 by construction — sum to at most 1. -/
theorem feature_flags_invariant (words : List String) (firstword : String)
    (otherwords : List String) (url text tld : String) (e : URLElement)
    (h : calcFeatures words firstword otherwords url text tld = some e) :
    ((e.beginning, e.middle, e.endp) = (1, 0, 0) ∨
     (e.beginning, e.middle, e.endp) = (0, 1, 0) ∨
     (e.beginning, e.middle, e.endp) = (0, 0, 1)) ∧
    e.net + e.co + e.gov + e.it + e.my + e.no + e.so + e.you + e.to_ + e.zip ≤ 1 := by
  simp only [calcFeatures] at h
  split at h
  · cases h
  · rename_i startof heq
    cases h
    refine ⟨?_, tldFlag_sum_le_one tld⟩
    rcases posTriple_cases (startof : ℤ) (text.length : ℤ) (url.length : ℤ) with
      hp | hp | hp <;> simp [hp]

theorem feature_flags_invariant_witness :
    calcFeatures [] "a" ["b"] "a.b" "x a.b" "b" =
      some ⟨"a.b", 0, 0, 1, 0, 1, 0, 0, 0, 0, 0, 0, 0, 0, 0, 0, 0, 0⟩ ∧
    (((0 : ℕ), (0 : ℕ), (1 : ℕ)) = (1, 0, 0) ∨ ((0 : ℕ), (0 : ℕ), (1 : ℕ)) = (0, 1, 0) ∨
     ((0 : ℕ), (0 : ℕ), (1 : ℕ)) = (0, 0, 1)) ∧
    (0 + 0 + 0 + 0 + 0 + 0 + 0 + 0 + 0 + 0 : ℕ) ≤ 1 :=
  ⟨by decide,
   feature_flags_invariant [] "a" ["b"] "a.b" "x a.b" "b"
     ⟨"a.b", 0, 0, 1, 0, 1, 0, 0, 0, 0, 0, 0, 0, 0, 0, 0, 0, 0⟩ (by decide)⟩

/-- Counterexample to claim C10 as stated: with first segment `"a"` and
remaining segments `["ab-", "c"]` the short-segment-majority condition
holds and a hyphen is present in a remaining segment, yet the flag is 1 —
the majority branch precedes the hyphen check, so the hyphen does not
force 0. -/
theorem string_flag_hyphen_cex :
    shortMajority "a" ["ab-", "c"] = true ∧ sContains "ab-" "-" = true ∧
    stringFlag [] "a" ["ab-", "c"] "a.ab-.c" = 1 :=
  ⟨by decide, by decide, by decide⟩

/-- Claim C10 (amended): when the short-segment-majority condition holds
the flag is 1 regardless of hyphens (that branch is tested first); the
hyphen branch, reached only when the majority condition fails, detects a
hyphen only in the first segment — `containsDash` reduces to a hyphen test
on `firstword` because the `forEach` callback's early `return true` is
discarded — and a hyphen in a remaining segment does not force the flag to
0 (concretely, `12.34.x-y` still gets flag 1). -/
theorem string_flag_amended (words : List String) (firstword : String)
    (otherwords : List String) (url : String) :
    (shortMajority firstword otherwords = true →
      stringFlag words firstword otherwords url = 1) ∧
    containsDash firstword otherwords = sContains firstword "-" ∧
    stringFlag ["34"] "12" ["34", "x-y"] "12.34.x-y" = 1 := by
  refine ⟨?_, rfl, by decide⟩
  intro h
  simp [stringFlag, h]

theorem string_flag_amended_witness :
    shortMajority "a" ["bb"] = true ∧ stringFlag [] "a" ["bb"] "a.bb" = 1 :=
  ⟨by decide, (string_flag_amended [] "a" ["bb"] "a.bb").1 (by decide)⟩

/-- A concrete candidate element used by the C7 counterexample. -/
def nsCexElt : URLElement := ⟨"you.you", 0, 0, 1, 0, 1, 0, 0, 0, 0, 0, 0, 0, 0, 1, 0, 0, 1⟩

/-- Counterexample to claim C7 as stated: when the NS lookup fails without
HTTP 200 the candidate is not submitted with `ns = 0` — the callback never
runs, the batch stays empty, and the candidate is dropped; a thrown
synchronous XHR error even aborts `calculateFeatures`. -/
theorem ns_failure_drops_candidate :
    nsStep NSResult.httpFailure nsCexElt [] = some [] ∧
    some ([] : List URLElement) ≠ some [{ nsCexElt with ns := 0 }] ∧
    nsStep NSResult.thrown nsCexElt [] = none :=
  ⟨rfl, by decide, rfl⟩

/-- Claim C7 (amended): only a lookup that completes with HTTP 200 sets
`ns` (1 iff the record list is empty) and pushes the candidate into the
prediction batch; a lookup completing without HTTP 200 leaves the batch
unchanged (the candidate is silently dropped, not defaulted to `ns = 0`),
and a thrown synchronous XHR error propagates out of the feature pass. -/
theorem ns_callback_behavior :
    ∀ (records : ℕ) (e : URLElement) (arr : List URLElement),
      nsStep (NSResult.success records) e arr
        = some (arr ++ [{ e with ns := if records = 0 then 1 else 0 }]) ∧
      nsStep NSResult.httpFailure e arr = some arr ∧
      nsStep NSResult.thrown e arr = none :=
  fun _ _ _ => ⟨rfl, rfl, rfl⟩
